import Mathlib

/-!
Verification development for the rwa-studio build pipeline and module host
bridge. The definitions below are a shallow embedding of the TypeScript
source: the content addresser (bin/package-cid.mjs and the random CID
generator of the build sandbox UI), the module host bridge (src/ownable.ts),
the build service (src/common/services/buildService.ts) and the build
orchestrator (the BuildSandbox handleBuild handler).
-/

namespace RwaStudio

/-! ## JavaScript string helpers

Executable models of the JavaScript string operations used by the source
(toLowerCase, endsWith, includes, split, charAt), written over character
lists so every definition reduces in the kernel. -/

/-- JavaScript s.toLowerCase restricted to the ASCII range used by the repo. -/
def toLowerJs (s : String) : String :=
  ⟨s.data.map Char.toLower⟩

/-- JavaScript s.endsWith suffix. -/
def endsWithJs (s suffix : String) : Bool :=
  suffix.data.isSuffixOf s.data

/-- Whether sub occurs as a contiguous sublist, checked at every start
position. -/
def containsSubList (sub : List Char) : List Char → Bool
  | [] => decide (sub = [])
  | c :: rest => sub.isPrefixOf (c :: rest) || containsSubList sub rest

/-- JavaScript s.includes sub. -/
def includesJs (s sub : String) : Bool :=
  containsSubList sub.data s.data

/-- Split a character list at every occurrence of the separator, like the
JavaScript s.split(sep) for a single-character separator. -/
def splitCharList (sep : Char) : List Char → List (List Char)
  | [] => [[]]
  | c :: rest =>
    let r := splitCharList sep rest
    if c = sep then [] :: r
    else
      match r with
      | [] => [[c]]
      | h :: t => (c :: h) :: t

/-- JavaScript path.split(sep).pop() with the `|| path` fallback used by the
build service: the last path component, or the whole path when that last
component is empty (a JavaScript empty string is falsy). -/
def basenameJs (path : String) : String :=
  match (splitCharList '/' path.data).getLast? with
  | some l => if l = [] then path else ⟨l⟩
  | none => path

/-- Whether an entry name contains a path separator (path.includes with a
slash). -/
def containsSlash (s : String) : Bool :=
  s.data.contains '/'

/-- Whether a character matches the JavaScript regular-expression class for
whitespace, restricted to its ASCII members. -/
def isJsWhitespace (c : Char) : Bool :=
  c = ' ' || c = '\t' || c = '\n' || c = '\r' || c = '\x0b' || c = '\x0c'

/-- Worker for the global whitespace-run replacement: the flag records
whether we are inside a whitespace run whose dash was already emitted. -/
def replaceWsRunsGo : Bool → List Char → List Char
  | _, [] => []
  | inRun, c :: rest =>
    if isJsWhitespace c then
      if inRun then replaceWsRunsGo true rest
      else '-' :: replaceWsRunsGo true rest
    else c :: replaceWsRunsGo false rest

/-- JavaScript s.replace of every maximal whitespace run by a single dash. -/
def jsReplaceWsWithDash (s : String) : String :=
  ⟨replaceWsRunsGo false s.data⟩

/-- JavaScript s.charAt i as a character list: one character in range, the
empty string out of range. -/
def charAtJs (s : String) (i : Nat) : List Char :=
  if i < s.data.length then [s.data.getD i 'a'] else []

/-! ## Content addresser

bin/package-cid.mjs derives the script CID from the hex digest of the
archive bytes; the BuildSandbox UI instead generates a random CID
(generateRandomCid) from 44 independent draws of Math.random. -/

/-- The alphabet used by generateRandomCid in the BuildSandbox component. -/
def cidChars : String := "abcdefghijklmnopqrstuvwxyz0123456789"

/-- The random CID generator of the BuildSandbox UI. The stream randomAt
models the successive values of Math.floor(Math.random() * chars.length):
the i-th loop iteration appends chars.charAt(randomAt i) to the fixed
prefix. -/
def generateRandomCid (randomAt : Nat → Nat) : String :=
  ⟨(List.range 44).foldl (fun acc i => acc ++ charAtJs cidChars (randomAt i))
    "bafybeie".data⟩

/-- The script CID of bin/package-cid.mjs: the fixed prefix followed by the
first 44 characters of the hex SHA-256 digest of the archive bytes (the
digest computation itself is the external crypto library). -/
def cid (hashHex : String) : String :=
  ⟨"bafybeie".data ++ hashHex.data.take 44⟩

/-! ## Module host bridge (src/ownable.ts)

The bridge owns at most one worker. A worker is modelled by its observable
behaviour: a function from the posted wire message to the response the
bridge receives back. An absent worker (before init) is the `none` case. -/

/-- Opaque module state: a free-form key-value mapping. -/
abbrev OwnableStateM := List (String × String)

/-- Opaque message payload passed through the bridge. -/
abbrev OwnableMessageM := List (String × String)

/-- Caller info: either passed through as-is, or wrapped under a nested
info envelope by externalEvent. -/
inductive OwnableInfoM where
  | plain (fields : List (String × String))
  | wrapped (info : List (String × String))
deriving DecidableEq, Repr

/-- An attribute of a module response. -/
structure OwnableAttributeM where
  key : String
  value : String
deriving DecidableEq, Repr

/-- An event emitted by execute or externalEvent. -/
structure OwnableEventM where
  type : String
  attributes : List OwnableAttributeM
deriving DecidableEq, Repr

/-- The parsed result field of a worker response: either a structured
response object or a bare string (the query path returns a base64 string). -/
inductive OwnableResponseM where
  | obj (attributes : Option (List OwnableAttributeM))
        (events : Option (List OwnableEventM)) (data : Option String)
  | str (s : String)
deriving DecidableEq, Repr

/-- The wire message the bridge posts to the worker:
type, ownable_id, msg, info, mem with a state_dump field (the state_dump
carries the state argument, possibly undefined). -/
structure WireMessageM where
  type : String
  ownable_id : String
  msg : OwnableMessageM
  info : OwnableInfoM
  state_dump : Option OwnableStateM
deriving DecidableEq, Repr

/-- The mem field of a worker response after JSON parsing; its state_dump
property may be absent. -/
structure MemDumpM where
  state_dump : Option OwnableStateM
deriving DecidableEq, Repr

/-- A worker response as observed by the bridge: an optional err marker, a
result field (already parsed) and an optional mem state dump. -/
structure WorkerResponseM where
  err : Option String
  result : OwnableResponseM
  mem : Option MemDumpM
deriving DecidableEq, Repr

/-- The observable behaviour of a live worker: the response it sends back
for the single message posted by one bridge call. -/
abbrev WorkerBehaviorM := WireMessageM → WorkerResponseM

/-- Errors surfaced by the embedded JavaScript: plain string rejections,
Error objects (with an optional cause) and TypeErrors. -/
inductive JsErrorM where
  | stringReject (s : String)
  | jsError (message : String) (cause : Option String)
  | typeError (message : String)
deriving DecidableEq, Repr

/-- The outcome of one workerCall: the settled promise value and the list
of messages posted to the worker during the call. -/
structure WorkerCallOutcome where
  result : Except JsErrorM (OwnableResponseM × OwnableStateM)
  posted : List WireMessageM
deriving Repr

/-- The single wire message a bridge call posts to the worker. -/
def bridgeWireMessage (type ownableId : String) (msg : OwnableMessageM)
    (info : OwnableInfoM) (state : Option OwnableStateM) : WireMessageM :=
  { type := type, ownable_id := ownableId, msg := msg, info := info
    state_dump := state }

/-- The workerCall helper of src/ownable.ts. With no worker (before init)
it rejects with the not-initialized string and posts nothing. Otherwise it
posts exactly one wire message; an err marker in the response rejects with
a wrapped module error; otherwise the next state is the response state
dump when a mem field is present and the state argument otherwise, with a
JavaScript falsy-default to the empty object. -/
def workerCall (worker : Option WorkerBehaviorM) (type ownableId : String)
    (msg : OwnableMessageM) (info : OwnableInfoM)
    (state : Option OwnableStateM) : WorkerCallOutcome :=
  match worker with
  | none =>
    { result := .error (.stringReject ("Unable to " ++ type ++ ": not initialized"))
      posted := [] }
  | some w =>
    let m : WireMessageM := bridgeWireMessage type ownableId msg info state
    let data := w m
    match data.err with
    | some cause =>
      { result := .error (.jsError ("Ownable " ++ type ++ " failed") (some cause))
        posted := [m] }
    | none =>
      let nextState : Option OwnableStateM :=
        match data.mem with
        | some memDump => memDump.state_dump
        | none => state
      { result := .ok (data.result, nextState.getD [])
        posted := [m] }

/-- Result shape of the instantiate operation. -/
structure InstantiateResultM where
  attributes : List (String × String)
  state : OwnableStateM
deriving DecidableEq, Repr

/-- attributesToDict from src/ownable.ts. -/
def attributesToDict (attributes : List OwnableAttributeM) : List (String × String) :=
  attributes.map (fun a => (a.key, a.value))

/-- Attributes of a response object, or the empty list (the source defaults
response.attributes to an empty array); a bare-string response has none. -/
def responseAttributes : OwnableResponseM → List OwnableAttributeM
  | .obj (some attrs) _ _ => attrs
  | .obj none _ _ => []
  | .str _ => []

/-- Events of a response object with the same defaulting. -/
def responseEvents : OwnableResponseM → List OwnableEventM
  | .obj _ (some evs) _ => evs
  | .obj _ none _ => []
  | .str _ => []

/-- Data payload of a response object. -/
def responseData : OwnableResponseM → Option String
  | .obj _ _ d => d
  | .str _ => none

/-- Result shape shared by execute and externalEvent (executeResponse in
the source). -/
structure ExecuteResultM where
  attributes : List (String × String)
  events : List (String × List (String × String))
  data : Option String
  state : OwnableStateM
deriving DecidableEq, Repr

/-- executeResponse from src/ownable.ts. -/
def executeResponse (response : OwnableResponseM) (state : OwnableStateM) :
    ExecuteResultM :=
  { attributes := attributesToDict (responseAttributes response)
    events := (responseEvents response).map
      (fun e => (e.type, attributesToDict e.attributes))
    data := responseData response
    state := state }

/-- The instantiate operation: a workerCall with no state argument, whose
response attributes are flattened to a dictionary. -/
def instantiateOp (worker : Option WorkerBehaviorM) (ownableId : String)
    (msg : OwnableMessageM) (info : OwnableInfoM) :
    Except JsErrorM InstantiateResultM × List WireMessageM :=
  let o := workerCall worker "instantiate" ownableId msg info none
  match o.result with
  | .error e => (.error e, o.posted)
  | .ok (response, state) =>
    (.ok { attributes := attributesToDict (responseAttributes response)
           state := state }, o.posted)

/-- The execute operation. -/
def executeOp (worker : Option WorkerBehaviorM) (ownableId : String)
    (msg : OwnableMessageM) (info : OwnableInfoM) (state : OwnableStateM) :
    Except JsErrorM ExecuteResultM × List WireMessageM :=
  let o := workerCall worker "execute" ownableId msg info (some state)
  match o.result with
  | .error e => (.error e, o.posted)
  | .ok (response, newState) => (.ok (executeResponse response newState), o.posted)

/-- The externalEvent operation: identical to execute except the caller
info is wrapped under a nested info envelope and the wire type is
external_event. -/
def externalEventOp (worker : Option WorkerBehaviorM) (ownableId : String)
    (msg : OwnableMessageM) (messageInfo : List (String × String))
    (state : OwnableStateM) :
    Except JsErrorM ExecuteResultM × List WireMessageM :=
  let o := workerCall worker "external_event" ownableId msg
    (.wrapped messageInfo) (some state)
  match o.result with
  | .error e => (.error e, o.posted)
  | .ok (response, newState) => (.ok (executeResponse response newState), o.posted)

/-- The queryRaw operation: a workerCall with wire type query and empty
info, returning the response cast to a string. -/
def queryRawOp (worker : Option WorkerBehaviorM) (ownableId : String)
    (msg : OwnableMessageM) (state : OwnableStateM) :
    Except JsErrorM OwnableResponseM × List WireMessageM :=
  let o := workerCall worker "query" ownableId msg (.plain []) (some state)
  match o.result with
  | .error e => (.error e, o.posted)
  | .ok (response, _) => (.ok response, o.posted)

/-- A parsed query result: the base64 payload tagged as having gone through
the atob and JSON.parse steps (the decoding itself is outside this model). -/
inductive QueryResultM where
  | parsedFromBase64 (raw : OwnableResponseM)
deriving DecidableEq, Repr

/-- The query operation: queryRaw followed by base64 and JSON decoding of
the raw result. -/
def queryOp (worker : Option WorkerBehaviorM) (ownableId : String)
    (msg : OwnableMessageM) (state : OwnableStateM) :
    Except JsErrorM QueryResultM × List WireMessageM :=
  match queryRawOp worker ownableId msg state with
  | (.error e, posted) => (.error e, posted)
  | (.ok raw, posted) => (.ok (.parsedFromBase64 raw), posted)

/-! ## Raw window-message pass-through (src/ownable.ts lines 67-70) -/

/-- A message event as seen by the bridge window listener: its origin, the
presence of the RPC envelope marker in its data, and the payload. -/
structure WindowMessageM where
  origin : String
  hasRpc : Bool
  data : String
deriving DecidableEq, Repr

/-- The window message listener: it returns early (forwarding nothing)
unless the origin is the opaque-origin string null and the data carries no
RPC marker; otherwise it forwards the data verbatim to the parent frame. -/
def messageListenerForwards (e : WindowMessageM) : List String :=
  if e.origin != "null" || e.hasRpc then [] else [e.data]

/-! ## Project data model (src/common/interfaces/files) -/

/-- A project file: name, content, extension tag and full path from the
root. -/
structure File where
  name : String
  content : String
  type : String
  path : String
deriving DecidableEq, Repr

/-- A folder tree node: name, canonical path, a mapping of child file name
to file (possibly absent on malformed input, which the build validates
against) and a mapping of child folder name to folder. Mappings are
insertion-ordered key-value lists, matching JavaScript record iteration. -/
inductive Folder where
  | node (name path : String) (files : Option (List (String × File)))
         (folders : List (String × Folder))
deriving Repr

/-- Name accessor. -/
def Folder.name : Folder → String
  | .node n _ _ _ => n

/-- Files accessor. -/
def Folder.files : Folder → Option (List (String × File))
  | .node _ _ fs _ => fs

/-- Subfolders accessor. -/
def Folder.folders : Folder → List (String × Folder)
  | .node _ _ _ sub => sub

/-- The three asset-path lists of a project; each may be absent. -/
structure Assets where
  images : Option (List String)
  models : Option (List String)
  other : Option (List String)
deriving Repr

/-- A project (Ownable): name, optional description, optional assets index
and a root folder that may be absent on malformed input. -/
structure Ownable where
  name : String
  description : Option String
  assets : Option Assets
  folder : Option Folder
deriving Repr

/-- The structure validation shared by handleBuild and buildOwnable:
the ownable, its folder and the folder file mapping must all be present. -/
def validOwnableStructure : Option Ownable → Bool
  | none => false
  | some o =>
    match o.folder with
    | none => false
    | some f => f.files.isSome

/-! ## Build service (src/common/services/buildService.ts) -/

/-- Configuration for one build. -/
structure BuildConfig where
  packageName : String
  version : String
  description : String
deriving DecidableEq, Repr

/-- The status of a build step. -/
inductive StepStatusM where
  | pending
  | running
  | success
  | error
deriving DecidableEq, Repr

/-- One updateStep call: the step id and the partial update it applies
(an optional new status and an optional progress value). -/
structure StepEvent where
  id : String
  status : Option StepStatusM
  progress : Option Nat
deriving DecidableEq, Repr

/-- A path-and-content entry of one of the three collection buckets. -/
abbrev FileEntry := String × String

/-- The three buckets produced by the collect phase. -/
structure ProjectFilesM where
  rustFiles : List FileEntry
  assetFiles : List FileEntry
  configFiles : List FileEntry
deriving DecidableEq, Repr

/-- Concatenation of bucket triples, as the per-subfolder merge does. -/
def appendProjectFiles (a b : ProjectFilesM) : ProjectFilesM :=
  { rustFiles := a.rustFiles ++ b.rustFiles
    assetFiles := a.assetFiles ++ b.assetFiles
    configFiles := a.configFiles ++ b.configFiles }

/-- Classification of the files directly in one folder, in iteration
order: a file of type .rs is a contract source; Cargo.toml, Cargo.lock and
any .json file are config; everything else is an asset. The path of an
entry joins the base path and the file name, the base path being dropped
when it is the empty (falsy) root prefix. -/
def classifyFolderFiles : List (String × File) → String → ProjectFilesM
  | [], _ => ⟨[], [], []⟩
  | (_, file) :: rest, basePath =>
    let filePath := if basePath = "" then file.name
                    else basePath ++ "/" ++ file.name
    let restPF := classifyFolderFiles rest basePath
    if file.type = ".rs" then
      { restPF with rustFiles := (filePath, file.content) :: restPF.rustFiles }
    else if file.name = "Cargo.toml" || file.name = "Cargo.lock"
        || endsWithJs file.name ".json" then
      { restPF with configFiles := (filePath, file.content) :: restPF.configFiles }
    else
      { restPF with assetFiles := (filePath, file.content) :: restPF.assetFiles }

mutual

/-- extractFilesRecursively from buildOwnable: classifies the files of this
folder, then appends the buckets of every subfolder in order. Reading the
file mapping of a folder where it is absent raises the JavaScript
TypeError of Object.values(undefined). -/
def extractFilesRecursively : Folder → String → Except JsErrorM ProjectFilesM
  | .node _ _ none _, _ =>
    .error (.typeError "Cannot convert undefined or null to object")
  | .node _ _ (some files) folders, basePath =>
    let own := classifyFolderFiles files basePath
    match extractSubfolders folders basePath with
    | .error e => .error e
    | .ok subs => .ok (appendProjectFiles own subs)

/-- The subfolder loop of extractFilesRecursively: each subfolder is
walked under the joined path and its buckets appended in order. -/
def extractSubfolders : List (String × Folder) → String → Except JsErrorM ProjectFilesM
  | [], _ => .ok ⟨[], [], []⟩
  | (_, sub) :: rest, basePath =>
    let subfolderPath := if basePath = "" then sub.name
                         else basePath ++ "/" ++ sub.name
    match extractFilesRecursively sub subfolderPath with
    | .error e => .error e
    | .ok r =>
      match extractSubfolders rest basePath with
      | .error e => .error e
      | .ok rs => .ok (appendProjectFiles r rs)

end

/-- Key lookup in an insertion-ordered record. -/
def recordLookup {α : Type} (r : List (String × α)) (key : String) : Option α :=
  (r.find? (fun kv => kv.1 = key)).map (fun kv => kv.2)

mutual

/-- findFileByPath from processAssetPaths: looks the asset path up as a
key of the file mapping of this folder, then searches every subfolder
recursively. It is only invoked after extraction has verified that every
file mapping is present, so an absent mapping is read as empty. -/
def findFileByPath (folder : Folder) (path : String) : Option File :=
  match folder with
  | .node _ _ files folders =>
    match recordLookup (files.getD []) path with
    | some f => some f
    | none => findFileInSubfolders folders path

/-- The subfolder loop of findFileByPath. -/
def findFileInSubfolders (subs : List (String × Folder)) (path : String) :
    Option File :=
  match subs with
  | [] => none
  | (_, sub) :: rest =>
    match findFileByPath sub path with
    | some f => some f
    | none => findFileInSubfolders rest path

end

/-- processAssetPaths from buildOwnable: for every path of the assets
index that resolves to a file, the file is appended to the asset bucket
(recorded under its bare name) unless some entry of the bucket already
carries a path equal to the path field of the resolved file. -/
def processAssetPaths (rootFolder : Folder) (assetPaths : List String)
    (extracted : ProjectFilesM) : ProjectFilesM :=
  assetPaths.foldl (fun acc assetPath =>
    match findFileByPath rootFolder assetPath with
    | none => acc
    | some assetFile =>
      let alreadyAdded := acc.assetFiles.any (fun fe => fe.1 = assetFile.path)
      if alreadyAdded then acc
      else { acc with
             assetFiles := acc.assetFiles ++ [(assetFile.name, assetFile.content)] })
    extracted

/-- The collect phase of buildOwnable: the recursive walk followed by the
defensive re-indexing of each non-empty assets list (images, then models,
then other). -/
def collectProjectFiles (folder : Folder) (assets : Option Assets) :
    Except JsErrorM ProjectFilesM :=
  match extractFilesRecursively folder "" with
  | .error e => .error e
  | .ok extracted =>
    .ok (match assets with
      | none => extracted
      | some a =>
        let e1 := match a.images with
          | some imgs => if imgs.length > 0 then processAssetPaths folder imgs extracted else extracted
          | none => extracted
        let e2 := match a.models with
          | some ms => if ms.length > 0 then processAssetPaths folder ms e1 else e1
          | none => e1
        match a.other with
          | some os => if os.length > 0 then processAssetPaths folder os e2 else e2
          | none => e2)

/-- The search of findIndexHtml over the files directly in one folder: the
first file whose lowercased name is index.html. -/
def findIndexHtmlInFiles : List (String × File) → Option String
  | [] => none
  | (_, f) :: rest =>
    if toLowerJs f.name = "index.html" then some f.content
    else findIndexHtmlInFiles rest

mutual

/-- findIndexHtml from buildWithBrowser: a file named index.html
(case-insensitively) directly in this folder wins, then the subfolders
are searched recursively in order. Iterating an absent file mapping
visits nothing, like a JavaScript for-in over undefined. -/
def findIndexHtml : Folder → Option String
  | .node _ _ files folders =>
    match findIndexHtmlInFiles (files.getD []) with
    | some c => some c
    | none => findIndexHtmlInSubfolders folders

/-- The subfolder loop of findIndexHtml. -/
def findIndexHtmlInSubfolders : List (String × Folder) → Option String
  | [] => none
  | (_, sub) :: rest =>
    match findIndexHtml sub with
    | some c => some c
    | none => findIndexHtmlInSubfolders rest

end

mutual

/-- Whether the folder tree contains a file whose type tag is .rs; this is
the tree-content notion named by the specification, mirrored over the same
traversal order as the walk. -/
def Folder.containsRsFile : Folder → Bool
  | .node _ _ files folders =>
    (files.getD []).any (fun kv => kv.2.type = ".rs")
      || containsRsInSubfolders folders

/-- The subfolder part of Folder.containsRsFile. -/
def containsRsInSubfolders : List (String × Folder) → Bool
  | [] => false
  | (_, sub) :: rest => sub.containsRsFile || containsRsInSubfolders rest

end

/-! ## Package content and archive model

No claim inspects the byte content of the generated binary, glue code or
schema documents, so contents are represented by tagged constructors that
record exactly which source string each entry holds, while names, the
package metadata and project-supplied text are carried in full. -/

/-- The name, version, license, file manifest, entry-module pointer and
side-effects flag of the generated package.json. -/
structure PackageJsonData where
  name : String
  version : String
  license : String
  files : List String
  moduleEntry : String
  sideEffects : Bool
deriving DecidableEq, Repr

/-- The content of one archive entry. -/
inductive Content where
  | undef
  | text (s : String)
  | wasmBase64
  | glueJs
  | wasmPackPackageJson (name version : String)
  | webpackConfig (packageName : String)
  | generatedIndexHtml (packageName version : String)
  | generatedConfigJson
  | schemaDoc (title : String)
  | packageJson (p : PackageJsonData)
  | packageLockJson (name version : String)
deriving DecidableEq, Repr

/-- A JSZip archive restricted to what the build uses: an insertion-ordered
list of named entries. -/
abbrev Zip := List (String × Content)

/-- zip.file name content: replaces the entry of an existing name in
place, otherwise appends. -/
def zipFile (z : Zip) (name : String) (c : Content) : Zip :=
  if z.any (fun e => e.1 = name) then
    z.map (fun e => if e.1 = name then (name, c) else e)
  else z ++ [(name, c)]

/-- The entry names of an archive. -/
def zipNames (z : Zip) : List String := z.map (fun e => e.1)

/-- zip.remove name. -/
def zipRemove (z : Zip) (name : String) : Zip :=
  z.filter (fun e => e.1 ≠ name)

/-- Content of a named entry. -/
def zipGet (z : Zip) (name : String) : Option Content :=
  (z.find? (fun e => e.1 = name)).map (fun e => e.2)

/-- convertToRecord from the build service: the file list folded into a
record keyed by path, later entries overwriting earlier values. -/
def recordSet {α : Type} (r : List (String × α)) (k : String) (v : α) :
    List (String × α) :=
  if r.any (fun e => e.1 = k) then
    r.map (fun e => if e.1 = k then (k, v) else e)
  else r ++ [(k, v)]

/-- convertToRecord applied to a bucket. -/
def convertToRecord (files : List FileEntry) : List (String × String) :=
  files.foldl (fun record f => recordSet record f.1 f.2) []

/-- createWasmPackOutput: the fixed simulated wasm-pack record with the
binary, the glue module and a package metadata document. -/
def createWasmPackOutput (packageName : String) (version : String) :
    List (String × Content) :=
  [("ownable_bg.wasm", .wasmBase64),
   ("ownable.js", .glueJs),
   ("package.json", .wasmPackPackageJson packageName version)]

/-- createSchemaFiles: one fixed JSON Schema document per message shape, in
source object order. -/
def createSchemaFiles : List (String × Content) :=
  [("query_msg.json", .schemaDoc "QueryMsg"),
   ("execute_msg.json", .schemaDoc "ExecuteMsg"),
   ("instantiate_msg.json", .schemaDoc "InstantiateMsg"),
   ("external_event_msg.json", .schemaDoc "ExternalEventMsg"),
   ("info_response.json", .schemaDoc "InfoResponse"),
   ("metadata.json", .schemaDoc "Metadata")]

/-- The record a successful simulated compilation returns: the wasm-pack
output extended with the webpack config for reference, the generated
index.html and the generated config.json. -/
def compiledOutput (packageName : String) (version : String) :
    List (String × Content) :=
  let output := createWasmPackOutput packageName version
  let output := recordSet output "webpack.config.js" (.webpackConfig packageName)
  let output := recordSet output "index.html" (.generatedIndexHtml packageName version)
  let output := recordSet output "config.json" .generatedConfigJson
  output

/-- compileWithWebpack: after the initial progress report the entry point
is chosen as the first source path ending in lib.rs or main.rs, with the
first collected source as fallback; dereferencing the selection when no
source file exists raises the JavaScript TypeError of undefined.split.
On success the simulated wasm-pack record is extended with the webpack
config, the generated index.html and the generated config.json. The step
events carry the fractional compile progress reports. -/
def compileWithWebpack (rustFiles : List (String × String))
    (packageName : String) (version : String) :
    Except JsErrorM (List (String × Content)) × List StepEvent :=
  let ev0 : List StepEvent := [⟨"compile", none, some 20⟩]
  let keys := rustFiles.map (fun e => e.1)
  let mainFile := (keys.find? (fun p => endsWithJs p "lib.rs" || endsWithJs p "main.rs")).orElse
    (fun _ => keys.head?)
  match mainFile with
  | none =>
    (.error (.typeError "Cannot read properties of undefined (reading 'split')"), ev0)
  | some _ =>
    let ev := ev0 ++ [⟨"compile", none, some 30⟩, ⟨"compile", none, some 40⟩,
      ⟨"compile", none, some 50⟩, ⟨"compile", none, some 70⟩,
      ⟨"compile", none, some 85⟩, ⟨"compile", none, some 95⟩]
    (.ok (compiledOutput packageName version), ev)

/-- The flatten-and-repair pass at the end of the package step: every
entry name containing a slash is detected on a snapshot of the name list,
its content extracted, the entry removed and the content re-inserted under
the base filename. -/
def repairPass (z : Zip) : Zip :=
  let zipFiles := zipNames z
  let foldersInZip := zipFiles.filter containsSlash
  foldersInZip.foldl (fun zz path =>
    let content := (zipGet zz path).getD .undef
    let filename := basenameJs path
    zipFile (zipRemove zz path) filename content) z

/-- The package name of the artifact: the ownable name lowercased with
whitespace runs replaced by dashes, under the fixed prefix. -/
def artifactPackageName (ownableName : String) : String :=
  "ownable-" ++ jsReplaceWsWithDash (toLowerJs ownableName)

/-- The fixed file manifest written into the generated package.json. -/
def packageJsonFilesList : List String :=
  ["ownable_bg.wasm", "ownable.js", "index.html", "config.json",
   "query_msg.json", "execute_msg.json", "instantiate_msg.json",
   "external_event_msg.json", "info_response.json", "metadata.json"]

/-- The generated package.json metadata. -/
def mkPackageJson (packageName version : String) : PackageJsonData :=
  { name := packageName, version := version, license := "MIT"
    files := packageJsonFilesList, moduleEntry := "ownable.js"
    sideEffects := false }

/-- The unconditional head of the package step: the binary, the glue
module, every schema document under its base filename, the package
metadata and the lock file. -/
def assembleBase (ownableName version : String)
    (wasmOutput schemaFiles : List (String × Content)) : Zip :=
  let z : Zip := []
  let z := zipFile z "ownable_bg.wasm"
    ((recordLookup wasmOutput "ownable_bg.wasm").getD .undef)
  let z := zipFile z "ownable.js"
    ((recordLookup wasmOutput "ownable.js").getD .undef)
  let z := schemaFiles.foldl (fun zz e => zipFile zz (basenameJs e.1) e.2) z
  let packageName := artifactPackageName ownableName
  let z := zipFile z "package.json" (.packageJson (mkPackageJson packageName version))
  zipFile z "package-lock.json" (.packageLockJson packageName version)

/-- One iteration of the asset loop: an HTML-suffixed asset becomes
index.html when none was found yet, every other asset is added under its
base filename; the flag records whether index.html was found. -/
def indexHtmlStep (acc : Zip × Bool) (e : String × String) : Zip × Bool :=
  if endsWithJs (toLowerJs e.1) ".html" || endsWithJs (toLowerJs e.1) ".htm" then
    if acc.2 then (zipFile acc.1 (basenameJs e.1) (.text e.2), acc.2)
    else (zipFile acc.1 "index.html" (.text e.2), true)
  else (zipFile acc.1 (basenameJs e.1) (.text e.2), acc.2)

/-- The index.html preference chain of the package step: an index.html
found anywhere in the project tree wins and suppresses the asset loop;
otherwise every asset is added under its base filename, the first
HTML-suffixed one as index.html; if still none was found, the generated
shell from the compiled record is used when present. -/
def assembleIndexHtml (folder : Folder) (wasmOutput : List (String × Content))
    (assetFiles : List (String × String)) (z : Zip) : Zip :=
  let zf : Zip × Bool :=
    match findIndexHtml folder with
    | some c => (zipFile z "index.html" (.text c), true)
    | none => assetFiles.foldl indexHtmlStep (z, false)
  if zf.2 then zf.1
  else match recordLookup wasmOutput "index.html" with
    | some c => zipFile zf.1 "index.html" c
    | none => zf.1

/-- One iteration of the config loop: a config file whose lowercased path
ends in config.json is added under its base filename and marks the
project config as found; any other non-Cargo config file is added under
its base filename; Cargo files are skipped. -/
def configStep (acc : Zip × Bool) (e : String × String) : Zip × Bool :=
  if endsWithJs (toLowerJs e.1) "config.json" then
    (zipFile acc.1 (basenameJs e.1) (.text e.2), true)
  else if !(includesJs (toLowerJs e.1) "cargo") then
    (zipFile acc.1 (basenameJs e.1) (.text e.2), acc.2)
  else acc

/-- The config preference chain, continued: the loop over the collected
config files followed by the generated-document fallback. -/
def assembleConfig (wasmOutput : List (String × Content))
    (configFiles : List (String × String)) (z : Zip) : Zip :=
  let zc : Zip × Bool := configFiles.foldl configStep (z, false)
  if zc.2 then zc.1
  else match recordLookup wasmOutput "config.json" with
    | some c => zipFile zc.1 "config.json" c
    | none => zc.1

/-- The package step of buildWithBrowser: the archive is assembled from
the compiled record, the schema documents, the package metadata, the
index.html preference chain, the config preference chain, and finally the
flatten-and-repair pass. Every project-supplied entry is inserted under
the base filename of its collected path. -/
def assemblePackage (folder : Folder) (ownableName version : String)
    (wasmOutput schemaFiles : List (String × Content))
    (assetFiles configFiles : List (String × String)) : Zip :=
  repairPass (assembleConfig wasmOutput configFiles
    (assembleIndexHtml folder wasmOutput assetFiles
      (assembleBase ownableName version wasmOutput schemaFiles)))

/-- The outcome of one buildOwnable invocation: the settled promise (the
assembled archive on success) and the sequence of updateStep calls. -/
structure BuildResult where
  result : Except JsErrorM Zip
  steps : List StepEvent
deriving Repr

/-- buildWithBrowser: the five strictly ordered steps with their status
transitions, the simulated compilation and the package assembly. A
compile failure propagates and leaves the later steps untouched. -/
def buildWithBrowser (ownableName : String) (folder : Folder)
    (pf : ProjectFilesM) (cfg : BuildConfig) : BuildResult :=
  let ev : List StepEvent := [⟨"collect", some .running, none⟩]
  let rustFiles := convertToRecord pf.rustFiles
  let assetFiles := convertToRecord pf.assetFiles
  let configFiles := convertToRecord pf.configFiles
  let ev := ev ++ [⟨"collect", some .success, some 100⟩, ⟨"compile", some .running, none⟩]
  match compileWithWebpack rustFiles ownableName cfg.version with
  | (.error e, cev) => ⟨.error e, ev ++ cev⟩
  | (.ok wasmOutput, cev) =>
    let ev := ev ++ cev ++ [⟨"compile", some .success, some 100⟩,
      ⟨"schema", some .running, none⟩, ⟨"schema", some .success, some 100⟩,
      ⟨"ts", some .running, none⟩, ⟨"ts", some .success, some 100⟩,
      ⟨"package", some .running, none⟩]
    let z := assemblePackage folder ownableName cfg.version wasmOutput
      createSchemaFiles assetFiles configFiles
    ⟨.ok z, ev ++ [⟨"package", some .success, some 100⟩]⟩

/-- The structure-validation error thrown by buildOwnable and reported by
handleBuild. -/
def structureError : JsErrorM :=
  .jsError "Invalid ownable structure. Missing folder or files." none

/-- buildOwnable from the build service: the effective configuration is
the custom one when provided; a missing ownable, folder or file mapping
rejects with the structure error before any step update; otherwise the
collect phase runs and the browser build takes over. The projectFiles
argument of the source is accepted and ignored, as in the source, which
re-extracts everything from the ownable itself. -/
def buildOwnable (config : BuildConfig) (_projectFiles : ProjectFilesM)
    (ownable : Option Ownable) (customConfig : Option BuildConfig) : BuildResult :=
  let cfg := customConfig.getD config
  match ownable with
  | none => ⟨.error structureError, []⟩
  | some o =>
    match o.folder with
    | none => ⟨.error structureError, []⟩
    | some folder =>
      match folder.files with
      | none => ⟨.error structureError, []⟩
      | some _ =>
        match collectProjectFiles folder o.assets with
        | .error e => ⟨.error e, []⟩
        | .ok pf => buildWithBrowser o.name folder pf cfg

/-! ## Build orchestrator (BuildSandbox handleBuild) -/

/-- An observable action of the handleBuild handler. -/
inductive UiAction where
  | runCleanup
  | setStatus (s : String)
  | setErrorMessage (m : String)
  | setCid (c : String)
deriving DecidableEq, Repr

/-- The default configuration of the exported build-service singleton. -/
def defaultConfig : BuildConfig :=
  { packageName := "default-ownable", version := "0.1.0"
    description := "Default ownable package built with RWA Studio" }

/-- Error message text surfaced to the UI for a rejected build. -/
def errorMessageOf : JsErrorM → String
  | .stringReject s => s
  | .jsError m _ => m
  | .typeError m => m

/-- handleBuild from the BuildSandbox component: on malformed structure it
sets the error state and returns before any cleanup; otherwise it runs
cleanup, drives buildOwnable with a custom configuration derived from the
ownable and the selected version, surfaces a freshly generated random CID
on success, and runs cleanup again on both the success and the caught
failure path. -/
def handleBuild (ownable : Option Ownable) (selectedVersion : String)
    (randomAt : Nat → Nat) : List UiAction :=
  let pre : List UiAction := [.setStatus "building"]
  match ownable with
  | none =>
    pre ++ [.setStatus "error",
      .setErrorMessage "Invalid ownable structure. Missing folder or files."]
  | some o =>
    if validOwnableStructure (some o) then
      let buildConfig : BuildConfig :=
        { packageName := artifactPackageName o.name
          version := selectedVersion
          description := (o.description).getD ("Ownable package for " ++ o.name) }
      let acts := pre ++ [.runCleanup]
      match (buildOwnable defaultConfig ⟨[], [], []⟩ (some o) (some buildConfig)).result with
      | .ok _ =>
        acts ++ [.setCid (generateRandomCid randomAt), .setStatus "success", .runCleanup]
      | .error e =>
        acts ++ [.setStatus "error", .setErrorMessage (errorMessageOf e), .runCleanup]
    else
      pre ++ [.setStatus "error",
        .setErrorMessage "Invalid ownable structure. Missing folder or files."]

/-- The number of cleanup invocations in a handler trace. -/
def countCleanups (acts : List UiAction) : Nat :=
  (acts.filter (fun a => a = .runCleanup)).length

/-- The CID surfaced to the UI by a handler trace, when any. -/
def surfacedCid (acts : List UiAction) : Option String :=
  acts.findSome? (fun a => match a with | .setCid c => some c | _ => none)

/-! ## Concrete fixtures used by counterexamples and witnesses -/

/-- A worker response with no error marker and no state dump. -/
def respNoMem : WorkerResponseM :=
  { err := none, result := .obj none none none, mem := none }

/-- A worker whose single response carries no error and no state dump. -/
def behaviorNoMem : WorkerBehaviorM := fun _ => respNoMem

/-- The placeholder source file of the demo scenario. -/
def demoLibRs : File :=
  { name := "lib.rs", content := "// placeholder", type := ".rs", path := "/lib.rs" }

/-- The root folder of the demo project: exactly one source file. -/
def demoFolder : Folder := .node "demo" "/" (some [("lib.rs", demoLibRs)]) []

/-- The demo project of the build scenario. -/
def demoOwnable : Ownable :=
  { name := "demo", description := none, assets := none, folder := some demoFolder }

/-- The custom configuration handleBuild derives for the demo project at
version 0.1.0. -/
def demoBuildConfig : BuildConfig :=
  { packageName := "ownable-demo", version := "0.1.0"
    description := "Ownable package for demo" }

/-- The result of building the demo project. -/
def demoBuildResult : BuildResult :=
  buildOwnable defaultConfig ⟨[], [], []⟩ (some demoOwnable) (some demoBuildConfig)

/-- An ownable whose folder is absent, failing structure validation. -/
def brokenOwnable : Ownable :=
  { name := "broken", description := none, assets := none, folder := none }

/-- The package metadata the demo build writes into package.json. -/
def demoPackageJson : PackageJsonData :=
  { name := "ownable-demo"
    version := "0.1.0"
    license := "MIT"
    files := packageJsonFilesList
    moduleEntry := "ownable.js"
    sideEffects := false }

/-- The twelve required entry names of the archive layout. -/
def requiredArchiveNames : List String :=
  ["ownable_bg.wasm", "ownable.js", "index.html", "config.json",
   "instantiate_msg.json", "execute_msg.json", "query_msg.json",
   "external_event_msg.json", "info_response.json", "metadata.json",
   "package.json", "package-lock.json"]

/-- A generic text file with no source file anywhere in its project. -/
def notesFile : File :=
  { name := "notes.txt", content := "hi", type := ".txt", path := "/notes.txt" }

/-- A structurally valid project whose tree contains no .rs file. -/
def noRsFolder : Folder := .node "norust" "/" (some [("notes.txt", notesFile)]) []

/-- The ownable wrapping noRsFolder. -/
def noRsOwnable : Ownable :=
  { name := "norust", description := none, assets := none, folder := some noRsFolder }

/-- An image file captured by the tree walk and also listed in the assets
index. -/
def iconFile : File :=
  { name := "icon.png", content := "PNGDATA", type := ".png", path := "/icon.png" }

/-- The root folder holding the icon. -/
def iconFolder : Folder := .node "proj" "/" (some [("icon.png", iconFile)]) []

/-- An assets index listing the already-walked icon. -/
def iconAssets : Assets :=
  { images := some ["icon.png"], models := none, other := none }

/-- A project config file whose path ends in config.json but whose base
filename differs from config.json. -/
def myConfigFile : File :=
  { name := "myconfig.json", content := "cfg", type := ".json", path := "/myconfig.json" }

/-- A buildable project carrying a source file and the myconfig.json
config file. -/
def myConfigFolder : Folder :=
  .node "cproj" "/"
    (some [("lib.rs", demoLibRs), ("myconfig.json", myConfigFile)]) []

/-- The ownable wrapping myConfigFolder. -/
def myConfigOwnable : Ownable :=
  { name := "cproj", description := none, assets := none, folder := some myConfigFolder }

/-- The invariant threaded through the asset and config loops: the
archive part stays flat, keeps every name of the starting archive, and
carries the target entry whenever the found flag is set. -/
def zipLoopInv (z : Zip) (target : String) (s : Zip × Bool) : Prop :=
  (∀ x ∈ zipNames s.1, containsSlash x = false) ∧
  (∀ m ∈ zipNames z, m ∈ zipNames s.1) ∧
  (s.2 = true → target ∈ zipNames s.1)

/-! ## Claim theorems -/

set_option maxHeartbeats 4000000 in
/-- C1 counterexample: the CID surfaced for a built package is not a
function of the artifact bytes. Two builds of the byte-identical demo
project at the same version, differing only in the values drawn from
Math.random, surface different CIDs. -/
theorem surfacedCid_not_determined_by_bytes :
    surfacedCid (handleBuild (some demoOwnable) "0.1.0" (fun _ => 0)) ≠
      surfacedCid (handleBuild (some demoOwnable) "0.1.0" (fun _ => 1)) := by
  decide

/-- C1 amended: CID generation is a pure function of its actual inputs.
The UI CID generator depends only on the 44 random draws, so equal draws
give equal CIDs (the artifact bytes are not an input at all), and the
script CID of bin/package-cid.mjs is a deterministic function of the hex
digest of the archive bytes: equal digests give equal CIDs. -/
theorem cid_pure_function_of_inputs (r1 r2 : Nat → Nat) (d1 d2 : String)
    (h : ∀ i, i < 44 → r1 i = r2 i) (hd : d1 = d2) :
    generateRandomCid r1 = generateRandomCid r2 ∧ cid d1 = cid d2 := by
  constructor
  · show String.mk ((List.range 44).foldl
          (fun acc i => acc ++ charAtJs cidChars (r1 i)) "bafybeie".data) =
        String.mk ((List.range 44).foldl
          (fun acc i => acc ++ charAtJs cidChars (r2 i)) "bafybeie".data)
    exact congrArg String.mk
      (List.foldl_ext _ _ _ (fun a b hb => by rw [h b (List.mem_range.mp hb)]))
  · rw [hd]

/-- C1 amended witness at concrete random streams and digests. -/
theorem cid_pure_function_of_inputs_witness :
    generateRandomCid (fun i => i) =
        generateRandomCid (fun i => if i < 44 then i else 99) ∧
      cid "abc" = cid "abc" :=
  cid_pure_function_of_inputs (fun i => i) (fun i => if i < 44 then i else 99)
    "abc" "abc" (fun i hi => by simp [hi]) rfl

/-- C2: every bridge operation that reaches workerCall before init, while
no worker handle exists, rejects with the not-initialized string and posts
no message to any worker: this holds for workerCall with an arbitrary wire
type and for each of instantiate, execute, externalEvent, query and
queryRaw. -/
theorem bridge_before_init_rejects_and_posts_nothing
    (ty ownableId : String) (msg : OwnableMessageM) (info : OwnableInfoM)
    (st : Option OwnableStateM) (minfo : List (String × String))
    (s : OwnableStateM) :
    workerCall none ty ownableId msg info st =
      ⟨.error (.stringReject ("Unable to " ++ ty ++ ": not initialized")), []⟩ ∧
    instantiateOp none ownableId msg info =
      (.error (.stringReject "Unable to instantiate: not initialized"), []) ∧
    executeOp none ownableId msg info s =
      (.error (.stringReject "Unable to execute: not initialized"), []) ∧
    externalEventOp none ownableId msg minfo s =
      (.error (.stringReject "Unable to external_event: not initialized"), []) ∧
    queryOp none ownableId msg s =
      (.error (.stringReject "Unable to query: not initialized"), []) ∧
    queryRawOp none ownableId msg s =
      (.error (.stringReject "Unable to query: not initialized"), []) :=
  ⟨rfl, rfl, rfl, rfl, rfl, rfl⟩

/-- C3 counterexample: it is not the case that every non-error, memless
worker response makes the bridge hand back exactly the state argument that
was passed in. On the instantiate path no state argument is passed, yet
the caller receives an invented empty state. -/
theorem state_passthrough_claim_false :
    ¬ (∀ (w : WorkerBehaviorM) (ty ownableId : String) (msg : OwnableMessageM)
        (info : OwnableInfoM) (st : Option OwnableStateM),
        (w (bridgeWireMessage ty ownableId msg info st)).err = none →
        (w (bridgeWireMessage ty ownableId msg info st)).mem = none →
        ∃ s, (workerCall (some w) ty ownableId msg info st).result =
            .ok ((w (bridgeWireMessage ty ownableId msg info st)).result, s) ∧
          some s = st) := by
  intro h
  obtain ⟨s, _, hnone⟩ :=
    h behaviorNoMem "instantiate" "id" [] (.plain []) none rfl rfl
  exact Option.noConfusion hnone

/-- C3 amended: when a state argument is actually supplied (the execute,
externalEvent and query paths) and the worker response carries neither an
error marker nor a mem state dump, the bridge resolves with exactly that
state, unchanged; only the instantiate path, which passes no state,
receives the empty default. -/
theorem state_passthrough_when_supplied (w : WorkerBehaviorM)
    (ty ownableId : String) (msg : OwnableMessageM) (info : OwnableInfoM)
    (s : OwnableStateM)
    (h1 : (w (bridgeWireMessage ty ownableId msg info (some s))).err = none)
    (h2 : (w (bridgeWireMessage ty ownableId msg info (some s))).mem = none) :
    (workerCall (some w) ty ownableId msg info (some s)).result =
      .ok ((w (bridgeWireMessage ty ownableId msg info (some s))).result, s) := by
  simp [workerCall, h1, h2]

/-- C3 amended witness: a concrete memless response passes a concrete
supplied state through unchanged. -/
theorem state_passthrough_when_supplied_witness :
    (workerCall (some behaviorNoMem) "execute" "id" [] (.plain [])
        (some [("k", "v")])).result =
      .ok ((behaviorNoMem (bridgeWireMessage "execute" "id" [] (.plain [])
        (some [("k", "v")]))).result, [("k", "v")]) :=
  state_passthrough_when_supplied behaviorNoMem "execute" "id" [] (.plain [])
    [("k", "v")] rfl rfl

/-- C6 counterexample: a message with no RPC envelope whose origin is not
the opaque-origin string is NOT forwarded: the listener forwards only
messages whose origin is exactly null. -/
theorem raw_passthrough_claim_false :
    ¬ (∀ e : WindowMessageM, e.hasRpc = false → e.origin ≠ "null" →
        messageListenerForwards e = [e.data]) := by
  intro h
  have hx := h ⟨"https://example.com", false, "payload"⟩ rfl (by decide)
  simp [messageListenerForwards] at hx

/-- C6 amended: the raw pass-through forwards exactly the messages that
carry no RPC envelope and originate from the null (opaque) origin; every
message with an RPC marker, and every message from a non-null origin, is
dropped. -/
theorem raw_passthrough_exact (e : WindowMessageM) :
    (e.hasRpc = true → messageListenerForwards e = []) ∧
    (e.origin = "null" → e.hasRpc = false → messageListenerForwards e = [e.data]) ∧
    (e.origin ≠ "null" → messageListenerForwards e = []) := by
  refine ⟨fun h => ?_, fun h1 h2 => ?_, fun h => ?_⟩
  · simp [messageListenerForwards, h]
  · simp [messageListenerForwards, h1, h2]
  · simp [messageListenerForwards, h]

/-- C6 amended witness at the three concrete branch inputs. -/
theorem raw_passthrough_exact_witness :
    messageListenerForwards ⟨"null", true, "d"⟩ = [] ∧
    messageListenerForwards ⟨"null", false, "d"⟩ = ["d"] ∧
    messageListenerForwards ⟨"https://example.com", false, "d"⟩ = [] :=
  ⟨(raw_passthrough_exact ⟨"null", true, "d"⟩).1 rfl,
   (raw_passthrough_exact ⟨"null", false, "d"⟩).2.1 rfl rfl,
   (raw_passthrough_exact ⟨"https://example.com", false, "d"⟩).2.2 (by decide)⟩

/-- C5 counterexample: on the structure-validation short-circuit path the
handler sets the error state and returns without ever invoking cleanup. -/
theorem handleBuild_short_circuit_skips_cleanup :
    handleBuild (some brokenOwnable) "0.1.0" (fun _ => 0) =
      [.setStatus "building", .setStatus "error",
       .setErrorMessage "Invalid ownable structure. Missing folder or files."] ∧
    countCleanups (handleBuild (some brokenOwnable) "0.1.0" (fun _ => 0)) = 0 :=
  ⟨rfl, rfl⟩

/-- C5 amended: for every project that passes structure validation,
handleBuild invokes cleanup at least twice, once before the build starts
and once after it settles, on both the success and the failure path; only
the structure-validation short-circuit returns without cleanup. -/
theorem cleanup_runs_after_success_and_failure (o : Ownable) (v : String)
    (r : Nat → Nat) (h : validOwnableStructure (some o) = true) :
    2 ≤ countCleanups (handleBuild (some o) v r) := by
  simp only [handleBuild, h, if_true]
  cases hb : (buildOwnable defaultConfig ⟨[], [], []⟩ (some o)
      (some { packageName := artifactPackageName o.name, version := v
              description := (o.description).getD ("Ownable package for " ++ o.name) })).result with
  | ok z => simp [countCleanups]
  | error e => simp [countCleanups]

/-- C5 amended witness: the valid demo project runs cleanup at least
twice. -/
theorem cleanup_runs_after_success_and_failure_witness :
    2 ≤ countCleanups (handleBuild (some demoOwnable) "0.1.0" (fun _ => 0)) :=
  cleanup_runs_after_success_and_failure demoOwnable "0.1.0" (fun _ => 0) rfl

/-- C7: a project whose folder or file mapping is absent rejects with the
structure error and emits no step update at all, in particular none with
status running. -/
theorem structure_error_before_any_running_step (cfg : BuildConfig)
    (pf0 : ProjectFilesM) (oo : Option Ownable) (cc : Option BuildConfig)
    (h : validOwnableStructure oo = false) :
    (buildOwnable cfg pf0 oo cc).result = .error structureError ∧
    (buildOwnable cfg pf0 oo cc).steps = [] := by
  cases oo with
  | none => exact ⟨rfl, rfl⟩
  | some o =>
    cases ho : o.folder with
    | none => simp [buildOwnable, ho]
    | some f =>
      cases hf : f.files with
      | none => simp [buildOwnable, ho, hf]
      | some fs =>
        rw [validOwnableStructure] at h
        rw [ho] at h
        simp [hf] at h

/-- C7 witness: the folderless ownable rejects before any step update. -/
theorem structure_error_before_any_running_step_witness :
    (buildOwnable defaultConfig ⟨[], [], []⟩ (some brokenOwnable) none).result =
        .error structureError ∧
    (buildOwnable defaultConfig ⟨[], [], []⟩ (some brokenOwnable) none).steps = [] :=
  structure_error_before_any_running_step defaultConfig ⟨[], [], []⟩
    (some brokenOwnable) none rfl

/-- C8: building the demo project (one placeholder lib.rs, name demo,
version 0.1.0) yields an archive whose entries are exactly the twelve
required files and nothing else, with package.json name ownable-demo and
version 0.1.0. -/
theorem demo_build_exact_archive :
    ∃ z, demoBuildResult.result = .ok z ∧
      zipNames z = ["ownable_bg.wasm", "ownable.js", "query_msg.json",
        "execute_msg.json", "instantiate_msg.json", "external_event_msg.json",
        "info_response.json", "metadata.json", "package.json",
        "package-lock.json", "index.html", "config.json"] ∧
      zipGet z "package.json" = some (.packageJson demoPackageJson) ∧
      demoPackageJson.name = "ownable-demo" ∧
      demoPackageJson.version = "0.1.0" ∧
      (zipNames z).Perm requiredArchiveNames :=
  ⟨_, rfl, rfl, rfl, rfl, rfl, by decide⟩

/-- Inserting an entry leaves the name list unchanged when the name is
already present, and appends it otherwise. -/
theorem zipNames_zipFile (z : Zip) (n : String) (c : Content) :
    zipNames (zipFile z n c) =
      if z.any (fun e => e.1 = n) then zipNames z else zipNames z ++ [n] := by
  unfold zipFile zipNames
  split
  · rw [List.map_map]
    exact List.map_congr_left (fun e _ => by
      by_cases h : e.1 = n
      · simp [h]
      · simp [h])
  · simp

/-- Membership in the names of an insertion. -/
theorem mem_zipNames_zipFile {m : String} (z : Zip) (n : String) (c : Content) :
    m ∈ zipNames (zipFile z n c) ↔ m ∈ zipNames z ∨ m = n := by
  rw [zipNames_zipFile]
  split
  · rename_i h
    have hn : n ∈ zipNames z := by
      obtain ⟨e, he, hen⟩ := List.any_eq_true.mp h
      simp only [decide_eq_true_eq] at hen
      exact List.mem_map.mpr ⟨e, he, hen⟩
    constructor
    · exact Or.inl
    · rintro (hm | rfl)
      · exact hm
      · exact hn
  · simp

/-- Inserting preserves existing names. -/
theorem mem_zipFile_of_mem {m : String} (z : Zip) (n : String) (c : Content)
    (h : m ∈ zipNames z) : m ∈ zipNames (zipFile z n c) :=
  (mem_zipNames_zipFile z n c).mpr (Or.inl h)

/-- The inserted name is present afterwards. -/
theorem mem_zipFile_self (z : Zip) (n : String) (c : Content) :
    n ∈ zipNames (zipFile z n c) :=
  (mem_zipNames_zipFile z n c).mpr (Or.inr rfl)

/-- Inserting a slash-free name preserves the flatten invariant. -/
theorem slashFree_zipFile (z : Zip) (n : String) (c : Content)
    (hz : ∀ x ∈ zipNames z, containsSlash x = false)
    (hn : containsSlash n = false) :
    ∀ x ∈ zipNames (zipFile z n c), containsSlash x = false := by
  intro x hx
  rcases (mem_zipNames_zipFile z n c).mp hx with h | rfl
  · exact hz x h
  · exact hn

/-- A predicate preserved by every step of a fold holds of the result. -/
theorem foldl_preserves {α σ : Type} (P : σ → Prop) (f : σ → α → σ)
    (l : List α) (s₀ : σ) (h0 : P s₀)
    (hs : ∀ s a, a ∈ l → P s → P (f s a)) : P (l.foldl f s₀) := by
  induction l generalizing s₀ with
  | nil => exact h0
  | cons a as ih =>
    exact ih (f s₀ a) (hs s₀ a (List.mem_cons_self a as) h0)
      (fun s b hb hP => hs s b (List.mem_cons_of_mem a hb) hP)

/-- Filtering for slashes over slash-free names yields nothing. -/
theorem filter_slash_nil (l : List String)
    (h : ∀ a ∈ l, containsSlash a = false) : l.filter containsSlash = [] := by
  induction l with
  | nil => rfl
  | cons a as ih =>
    simp [List.filter_cons, h a (List.mem_cons_self a as),
      ih (fun b hb => h b (List.mem_cons_of_mem a hb))]

/-- The repair pass is the identity on an archive whose entry names are
already flat. -/
theorem repairPass_eq_self (z : Zip)
    (h : ∀ n ∈ zipNames z, containsSlash n = false) : repairPass z = z := by
  simp only [repairPass]
  rw [filter_slash_nil (zipNames z) h]
  rfl

/-- One asset-loop iteration preserves the invariant when the base
filename of the asset path is flat. -/
theorem indexHtmlStep_preserves (z : Zip) (s : Zip × Bool)
    (e : String × String) (he : containsSlash (basenameJs e.1) = false)
    (hP : zipLoopInv z "index.html" s) :
    zipLoopInv z "index.html" (indexHtmlStep s e) := by
  obtain ⟨hs1, hs2, hs3⟩ := hP
  unfold indexHtmlStep
  by_cases h1 : (endsWithJs (toLowerJs e.1) ".html"
      || endsWithJs (toLowerJs e.1) ".htm") = true
  · rw [if_pos h1]
    cases hb : s.2 with
    | true =>
      rw [if_pos rfl]
      exact ⟨slashFree_zipFile s.1 _ _ hs1 he,
        fun m hm => mem_zipFile_of_mem s.1 _ _ (hs2 m hm),
        fun _ => mem_zipFile_of_mem s.1 _ _ (hs3 hb)⟩
    | false =>
      rw [if_neg (by simp)]
      exact ⟨slashFree_zipFile s.1 _ _ hs1 rfl,
        fun m hm => mem_zipFile_of_mem s.1 _ _ (hs2 m hm),
        fun _ => mem_zipFile_self s.1 _ _⟩
  · rw [if_neg h1]
    exact ⟨slashFree_zipFile s.1 _ _ hs1 he,
      fun m hm => mem_zipFile_of_mem s.1 _ _ (hs2 m hm),
      fun h => mem_zipFile_of_mem s.1 _ _ (hs3 h)⟩

/-- One config-loop iteration preserves the invariant when the base
filename is flat and, for a path that ends in config.json, coincides with
config.json. -/
theorem configStep_preserves (z : Zip) (s : Zip × Bool)
    (e : String × String) (he : containsSlash (basenameJs e.1) = false)
    (hcfg : endsWithJs (toLowerJs e.1) "config.json" = true →
      basenameJs e.1 = "config.json")
    (hP : zipLoopInv z "config.json" s) :
    zipLoopInv z "config.json" (configStep s e) := by
  obtain ⟨hs1, hs2, hs3⟩ := hP
  unfold configStep
  by_cases h1 : endsWithJs (toLowerJs e.1) "config.json" = true
  · rw [if_pos h1]
    refine ⟨slashFree_zipFile s.1 _ _ hs1 he,
      fun m hm => mem_zipFile_of_mem s.1 _ _ (hs2 m hm), fun _ => ?_⟩
    rw [← hcfg h1]
    exact mem_zipFile_self s.1 _ _
  · rw [if_neg h1]
    by_cases h2 : (!(includesJs (toLowerJs e.1) "cargo")) = true
    · rw [if_pos h2]
      exact ⟨slashFree_zipFile s.1 _ _ hs1 he,
        fun m hm => mem_zipFile_of_mem s.1 _ _ (hs2 m hm),
        fun h => mem_zipFile_of_mem s.1 _ _ (hs3 h)⟩
    · rw [if_neg h2]
      exact ⟨hs1, hs2, hs3⟩

/-- The index.html stage keeps the archive flat when every collected asset
path has a flat base filename, never removes a name, and always leaves an
index.html entry when the compiled record carries the generated shell. -/
theorem assembleIndexHtml_props (folder : Folder)
    (wasmOutput : List (String × Content)) (assetFiles : List (String × String))
    (z : Zip) (cgen : Content)
    (hW : recordLookup wasmOutput "index.html" = some cgen)
    (hA : ∀ e ∈ assetFiles, containsSlash (basenameJs e.1) = false)
    (hz : ∀ x ∈ zipNames z, containsSlash x = false) :
    (∀ x ∈ zipNames (assembleIndexHtml folder wasmOutput assetFiles z),
        containsSlash x = false) ∧
    (∀ m ∈ zipNames z, m ∈ zipNames (assembleIndexHtml folder wasmOutput assetFiles z)) ∧
    "index.html" ∈ zipNames (assembleIndexHtml folder wasmOutput assetFiles z) := by
  unfold assembleIndexHtml
  cases hfi : findIndexHtml folder with
  | some c =>
    dsimp only
    exact ⟨slashFree_zipFile z _ _ hz rfl, fun m hm => mem_zipFile_of_mem z _ _ hm,
      mem_zipFile_self z _ _⟩
  | none =>
    dsimp only
    have hfold : zipLoopInv z "index.html" (assetFiles.foldl indexHtmlStep (z, false)) :=
      foldl_preserves (zipLoopInv z "index.html") indexHtmlStep assetFiles (z, false)
        ⟨hz, fun _ h => h, by simp⟩
        (fun s e he hP => indexHtmlStep_preserves z s e (hA e he) hP)
    obtain ⟨h1, h2, h3⟩ := hfold
    cases hb : (assetFiles.foldl indexHtmlStep (z, false)).2 with
    | true => simpa [hb] using ⟨h1, h2, h3 hb⟩
    | false =>
      rw [if_neg (by simp), hW]
      exact ⟨slashFree_zipFile _ _ _ h1 rfl,
        fun m hm => mem_zipFile_of_mem _ _ _ (h2 m hm), mem_zipFile_self _ _ _⟩

/-- The config.json stage keeps the archive flat, never removes a name,
and always leaves a config.json entry provided every project config file
whose lowercased path ends in config.json has exactly config.json as base
filename and the compiled record carries the generated document. -/
theorem assembleConfig_props (wasmOutput : List (String × Content))
    (configFiles : List (String × String)) (z : Zip) (cgen : Content)
    (hW : recordLookup wasmOutput "config.json" = some cgen)
    (hC : ∀ e ∈ configFiles, containsSlash (basenameJs e.1) = false)
    (hCfg : ∀ e ∈ configFiles, endsWithJs (toLowerJs e.1) "config.json" = true →
      basenameJs e.1 = "config.json")
    (hz : ∀ x ∈ zipNames z, containsSlash x = false) :
    (∀ x ∈ zipNames (assembleConfig wasmOutput configFiles z),
        containsSlash x = false) ∧
    (∀ m ∈ zipNames z, m ∈ zipNames (assembleConfig wasmOutput configFiles z)) ∧
    "config.json" ∈ zipNames (assembleConfig wasmOutput configFiles z) := by
  unfold assembleConfig
  dsimp only
  have hfold : zipLoopInv z "config.json" (configFiles.foldl configStep (z, false)) :=
    foldl_preserves (zipLoopInv z "config.json") configStep configFiles (z, false)
      ⟨hz, fun _ h => h, by simp⟩
      (fun s e he hP => configStep_preserves z s e (hC e he) (hCfg e he) hP)
  obtain ⟨h1, h2, h3⟩ := hfold
  cases hb : (configFiles.foldl configStep (z, false)).2 with
  | true => simpa [hb] using ⟨h1, h2, h3 hb⟩
  | false =>
    rw [if_neg (by simp), hW]
    exact ⟨slashFree_zipFile _ _ _ h1 rfl,
      fun m hm => mem_zipFile_of_mem _ _ _ (h2 m hm), mem_zipFile_self _ _ _⟩

/-- The unconditional head of the package step stays flat and contains
the binary, the glue module, the six schema documents and the two package
metadata files, whatever the project name and version. -/
theorem assembleBase_props (ownableName version : String)
    (wasmOutput : List (String × Content)) :
    (∀ x ∈ zipNames (assembleBase ownableName version wasmOutput createSchemaFiles),
        containsSlash x = false) ∧
    ∀ n ∈ ["ownable_bg.wasm", "ownable.js", "query_msg.json", "execute_msg.json",
        "instantiate_msg.json", "external_event_msg.json", "info_response.json",
        "metadata.json", "package.json", "package-lock.json"],
      n ∈ zipNames (assembleBase ownableName version wasmOutput createSchemaFiles) := by
  unfold assembleBase
  dsimp only
  simp only [createSchemaFiles, List.foldl_cons, List.foldl_nil]
  constructor
  · refine slashFree_zipFile _ _ _ ?_ (by decide)
    refine slashFree_zipFile _ _ _ ?_ (by decide)
    refine slashFree_zipFile _ _ _ ?_ (by decide)
    refine slashFree_zipFile _ _ _ ?_ (by decide)
    refine slashFree_zipFile _ _ _ ?_ (by decide)
    refine slashFree_zipFile _ _ _ ?_ (by decide)
    refine slashFree_zipFile _ _ _ ?_ (by decide)
    refine slashFree_zipFile _ _ _ ?_ (by decide)
    refine slashFree_zipFile _ _ _ ?_ (by decide)
    refine slashFree_zipFile _ _ _ ?_ (by decide)
    intro x hx
    simp [zipNames] at hx
  · intro n hn
    simp only [List.mem_cons, List.not_mem_nil, or_false] at hn
    rcases hn with rfl | rfl | rfl | rfl | rfl | rfl | rfl | rfl | rfl | rfl
    · exact mem_zipFile_of_mem _ _ _ (mem_zipFile_of_mem _ _ _
        (mem_zipFile_of_mem _ _ _ (mem_zipFile_of_mem _ _ _
        (mem_zipFile_of_mem _ _ _ (mem_zipFile_of_mem _ _ _
        (mem_zipFile_of_mem _ _ _ (mem_zipFile_of_mem _ _ _
        (mem_zipFile_of_mem _ _ _
          ((mem_zipNames_zipFile _ _ _).mpr (Or.inr (by decide)))))))))))
    · exact mem_zipFile_of_mem _ _ _ (mem_zipFile_of_mem _ _ _
        (mem_zipFile_of_mem _ _ _ (mem_zipFile_of_mem _ _ _
        (mem_zipFile_of_mem _ _ _ (mem_zipFile_of_mem _ _ _
        (mem_zipFile_of_mem _ _ _ (mem_zipFile_of_mem _ _ _
          ((mem_zipNames_zipFile _ _ _).mpr (Or.inr (by decide))))))))))
    · exact mem_zipFile_of_mem _ _ _ (mem_zipFile_of_mem _ _ _
        (mem_zipFile_of_mem _ _ _ (mem_zipFile_of_mem _ _ _
        (mem_zipFile_of_mem _ _ _ (mem_zipFile_of_mem _ _ _
        (mem_zipFile_of_mem _ _ _
          ((mem_zipNames_zipFile _ _ _).mpr (Or.inr (by decide)))))))))
    · exact mem_zipFile_of_mem _ _ _ (mem_zipFile_of_mem _ _ _
        (mem_zipFile_of_mem _ _ _ (mem_zipFile_of_mem _ _ _
        (mem_zipFile_of_mem _ _ _ (mem_zipFile_of_mem _ _ _
          ((mem_zipNames_zipFile _ _ _).mpr (Or.inr (by decide))))))))
    · exact mem_zipFile_of_mem _ _ _ (mem_zipFile_of_mem _ _ _
        (mem_zipFile_of_mem _ _ _ (mem_zipFile_of_mem _ _ _
        (mem_zipFile_of_mem _ _ _
          ((mem_zipNames_zipFile _ _ _).mpr (Or.inr (by decide)))))))
    · exact mem_zipFile_of_mem _ _ _ (mem_zipFile_of_mem _ _ _
        (mem_zipFile_of_mem _ _ _ (mem_zipFile_of_mem _ _ _
          ((mem_zipNames_zipFile _ _ _).mpr (Or.inr (by decide))))))
    · exact mem_zipFile_of_mem _ _ _ (mem_zipFile_of_mem _ _ _
        (mem_zipFile_of_mem _ _ _
          ((mem_zipNames_zipFile _ _ _).mpr (Or.inr (by decide)))))
    · exact mem_zipFile_of_mem _ _ _ (mem_zipFile_of_mem _ _ _
        ((mem_zipNames_zipFile _ _ _).mpr (Or.inr (by decide))))
    · exact mem_zipFile_of_mem _ _ _
        ((mem_zipNames_zipFile _ _ _).mpr (Or.inr (by decide)))
    · exact (mem_zipNames_zipFile _ _ _).mpr (Or.inr (by decide))

/-- A file list with no .rs entry classifies into an empty source bucket. -/
theorem classify_rustFiles_nil (files : List (String × File)) (bp : String)
    (hn : (files.any fun kv => kv.2.type = ".rs") = false) :
    (classifyFolderFiles files bp).rustFiles = [] := by
  induction files with
  | nil => rfl
  | cons kv rest ih =>
    simp only [List.any_cons, Bool.or_eq_false_iff] at hn
    have h1 : ¬ (kv.2.type = ".rs") := by simpa using hn.1
    simp only [classifyFolderFiles]
    rw [if_neg h1]
    split <;> simp [ih hn.2]

mutual

/-- A successful walk of a tree containing no .rs file collects no source
files. -/
theorem extract_rustFiles_nil (f : Folder) (bp : String) (pf : ProjectFilesM)
    (h : extractFilesRecursively f bp = .ok pf)
    (hn : f.containsRsFile = false) : pf.rustFiles = [] :=
  match f, h, hn with
  | .node _ _ none _, h, _ => by simp [extractFilesRecursively] at h
  | .node _ _ (some files) folders, h, hn => by
    simp only [extractFilesRecursively] at h
    cases hsub : extractSubfolders folders bp with
    | error e => rw [hsub] at h; exact absurd h (by simp)
    | ok subs =>
      rw [hsub] at h
      simp only [Except.ok.injEq] at h
      simp only [Folder.containsRsFile, Bool.or_eq_false_iff] at hn
      have h1 := classify_rustFiles_nil files bp hn.1
      have h2 := extractSub_rustFiles_nil folders bp subs hsub hn.2
      rw [← h]
      simp [appendProjectFiles, h1, h2]

/-- The subfolder part of extract_rustFiles_nil. -/
theorem extractSub_rustFiles_nil (l : List (String × Folder)) (bp : String)
    (pf : ProjectFilesM) (h : extractSubfolders l bp = .ok pf)
    (hn : containsRsInSubfolders l = false) : pf.rustFiles = [] :=
  match l, h, hn with
  | [], h, _ => by
    simp only [extractSubfolders, Except.ok.injEq] at h
    rw [← h]
  | (_, sub) :: rest, h, hn => by
    simp only [extractSubfolders] at h
    simp only [containsRsInSubfolders, Bool.or_eq_false_iff] at hn
    cases hr : extractFilesRecursively sub
        (if bp = "" then sub.name else bp ++ "/" ++ sub.name) with
    | error e => rw [hr] at h; exact absurd h (by simp)
    | ok r =>
      rw [hr] at h
      cases hrs : extractSubfolders rest bp with
      | error e => rw [hrs] at h; exact absurd h (by simp)
      | ok rs =>
        rw [hrs] at h
        simp only [Except.ok.injEq] at h
        have h1 := extract_rustFiles_nil sub _ r hr hn.1
        have h2 := extractSub_rustFiles_nil rest bp rs hrs hn.2
        rw [← h]
        simp [appendProjectFiles, h1, h2]

end

/-- The defensive re-indexing only ever touches the asset bucket: the
source bucket is returned unchanged. -/
theorem processAssetPaths_rustFiles (root : Folder) (paths : List String)
    (e : ProjectFilesM) :
    (processAssetPaths root paths e).rustFiles = e.rustFiles := by
  induction paths generalizing e with
  | nil => rfl
  | cons p ps ih =>
    rw [processAssetPaths, List.foldl_cons, ← processAssetPaths, ih]
    cases hfd : findFileByPath root p with
    | none => rfl
    | some af => dsimp only; split <;> simp

/-- The collect phase of a tree with no .rs file yields an empty source
bucket. -/
theorem collect_rustFiles_nil (folder : Folder) (assets : Option Assets)
    (pf : ProjectFilesM) (h : collectProjectFiles folder assets = .ok pf)
    (hn : folder.containsRsFile = false) : pf.rustFiles = [] := by
  rw [collectProjectFiles] at h
  cases hx : extractFilesRecursively folder "" with
  | error e => rw [hx] at h; exact absurd h (by simp)
  | ok ext =>
    rw [hx] at h
    simp only [Except.ok.injEq] at h
    have hext := extract_rustFiles_nil folder "" ext hx hn
    rw [← h]
    cases assets with
    | none => exact hext
    | some a =>
      rcases a with ⟨imgs, mods, oth⟩
      cases imgs <;> cases mods <;> cases oth <;>
        · dsimp only
          repeat' split
          all_goals simp [processAssetPaths_rustFiles, hext]

/-- C10: a structurally valid project with no .rs file anywhere in its
tree fails during the compile step: entry-point selection finds no source
path and has no fallback, dereferencing it raises the TypeError of
undefined.split, the build rejects right after the first compile progress
report and no package is produced. -/
theorem no_rust_source_fails_in_compile (cfg : BuildConfig)
    (pf0 : ProjectFilesM) (cc : Option BuildConfig) (o : Ownable) (f : Folder)
    (files0 : List (String × File)) (pf : ProjectFilesM)
    (hf : o.folder = some f) (hfl : f.files = some files0)
    (hok : collectProjectFiles f o.assets = .ok pf)
    (hrs : f.containsRsFile = false) :
    (buildOwnable cfg pf0 (some o) cc).result =
      .error (.typeError "Cannot read properties of undefined (reading 'split')") ∧
    (buildOwnable cfg pf0 (some o) cc).steps =
      [⟨"collect", some .running, none⟩, ⟨"collect", some .success, some 100⟩,
       ⟨"compile", some .running, none⟩, ⟨"compile", none, some 20⟩] := by
  have hrust := collect_rustFiles_nil f o.assets pf hok hrs
  simp only [buildOwnable, hf, hfl, hok]
  simp [buildWithBrowser, compileWithWebpack, convertToRecord, hrust,
    Option.orElse]

/-- C10 witness at a concrete valid project with a single text file. -/
theorem no_rust_source_fails_in_compile_witness :
    (buildOwnable defaultConfig ⟨[], [], []⟩ (some noRsOwnable) none).result =
      .error (.typeError "Cannot read properties of undefined (reading 'split')") ∧
    (buildOwnable defaultConfig ⟨[], [], []⟩ (some noRsOwnable) none).steps =
      [⟨"collect", some .running, none⟩, ⟨"collect", some .success, some 100⟩,
       ⟨"compile", some .running, none⟩, ⟨"compile", none, some 20⟩] :=
  no_rust_source_fails_in_compile defaultConfig ⟨[], [], []⟩ none noRsOwnable
    noRsFolder [("notes.txt", notesFile)] ⟨[], [("notes.txt", "hi")], []⟩
    rfl rfl rfl rfl

/-- The compiled record always carries the generated index.html shell. -/
theorem compiledOutput_indexHtml (n v : String) :
    recordLookup (compiledOutput n v) "index.html" =
      some (.generatedIndexHtml n v) := rfl

/-- The compiled record always carries the generated config.json. -/
theorem compiledOutput_configJson (n v : String) :
    recordLookup (compiledOutput n v) "config.json" =
      some .generatedConfigJson := rfl

/-- C4 counterexample: a successful build of a project whose only config
file is named myconfig.json produces an archive without any config.json
entry: the required filename set of the archive layout is not a subset of
the entry names. -/
theorem config_json_missing_after_successful_build :
    ∃ z, (buildOwnable defaultConfig ⟨[], [], []⟩ (some myConfigOwnable) none).result =
        .ok z ∧
      "config.json" ∉ zipNames z ∧ "myconfig.json" ∈ zipNames z := by
  refine ⟨_, rfl, ?_, ?_⟩ <;> decide

/-- C4 amended: the flatten invariant holds of every assembled archive
whose collected asset and config paths have flat base filenames, and the
required filename set is a subset of the entry names provided every
project config file whose lowercased path ends in config.json has exactly
config.json as its base filename (otherwise the config.json entry is the
one required name that can be missing, as the counterexample shows). -/
theorem package_flatten_and_required (folder : Folder)
    (ownableName version : String)
    (assetFiles configFiles : List (String × String))
    (hA : ∀ e ∈ assetFiles, containsSlash (basenameJs e.1) = false)
    (hC : ∀ e ∈ configFiles, containsSlash (basenameJs e.1) = false)
    (hCfg : ∀ e ∈ configFiles, endsWithJs (toLowerJs e.1) "config.json" = true →
      basenameJs e.1 = "config.json") :
    (∀ n ∈ zipNames (assemblePackage folder ownableName version
        (compiledOutput ownableName version) createSchemaFiles assetFiles configFiles),
      containsSlash n = false) ∧
    ∀ n ∈ requiredArchiveNames,
      n ∈ zipNames (assemblePackage folder ownableName version
        (compiledOutput ownableName version) createSchemaFiles assetFiles configFiles) := by
  obtain ⟨hbflat, hbmem⟩ :=
    assembleBase_props ownableName version (compiledOutput ownableName version)
  obtain ⟨hi1, hi2, hi3⟩ := assembleIndexHtml_props folder
    (compiledOutput ownableName version) assetFiles
    (assembleBase ownableName version (compiledOutput ownableName version) createSchemaFiles)
    (.generatedIndexHtml ownableName version)
    (compiledOutput_indexHtml ownableName version) hA hbflat
  obtain ⟨hc1, hc2, hc3⟩ := assembleConfig_props
    (compiledOutput ownableName version) configFiles
    (assembleIndexHtml folder (compiledOutput ownableName version) assetFiles
      (assembleBase ownableName version (compiledOutput ownableName version) createSchemaFiles))
    .generatedConfigJson
    (compiledOutput_configJson ownableName version) hC hCfg hi1
  unfold assemblePackage
  rw [repairPass_eq_self _ hc1]
  refine ⟨hc1, ?_⟩
  intro n hn
  simp only [requiredArchiveNames, List.mem_cons, List.not_mem_nil, or_false] at hn
  rcases hn with rfl | rfl | rfl | rfl | rfl | rfl | rfl | rfl | rfl | rfl | rfl | rfl
  · exact hc2 _ (hi2 _ (hbmem _ (by decide)))
  · exact hc2 _ (hi2 _ (hbmem _ (by decide)))
  · exact hc2 _ hi3
  · exact hc3
  · exact hc2 _ (hi2 _ (hbmem _ (by decide)))
  · exact hc2 _ (hi2 _ (hbmem _ (by decide)))
  · exact hc2 _ (hi2 _ (hbmem _ (by decide)))
  · exact hc2 _ (hi2 _ (hbmem _ (by decide)))
  · exact hc2 _ (hi2 _ (hbmem _ (by decide)))
  · exact hc2 _ (hi2 _ (hbmem _ (by decide)))
  · exact hc2 _ (hi2 _ (hbmem _ (by decide)))
  · exact hc2 _ (hi2 _ (hbmem _ (by decide)))

/-- C4 amended witness at concrete inputs with empty asset and config
buckets. -/
theorem package_flatten_and_required_witness :
    (∀ n ∈ zipNames (assemblePackage demoFolder "demo" "0.1.0"
        (compiledOutput "demo" "0.1.0") createSchemaFiles [] []),
      containsSlash n = false) ∧
    ∀ n ∈ requiredArchiveNames,
      n ∈ zipNames (assemblePackage demoFolder "demo" "0.1.0"
        (compiledOutput "demo" "0.1.0") createSchemaFiles [] []) :=
  package_flatten_and_required demoFolder "demo" "0.1.0" [] []
    (by simp) (by simp) (by simp)

/-- C9: the defensive re-indexing of the assets index re-adds a file the
tree walk already captured. The walk stores the icon under its walk path
icon.png, the re-indexing pass compares against the file path field
/icon.png, finds no match, and appends a second entry for the same file. -/
theorem asset_reindex_duplicates_walked_file :
    collectProjectFiles iconFolder (some iconAssets) =
      .ok ⟨[], [("icon.png", "PNGDATA"), ("icon.png", "PNGDATA")], []⟩ := by
  rfl

end RwaStudio
